import Mathlib

/-!
Shallow embedding of pyomo/util/infeasible.py: four diagnostic report
functions over an optimization model.  Expression evaluation is abstracted to
its result: a constraint's body carries the value that
value(constr.body, exception=False) would return (none when a referenced
variable is unset), and a variable carries its optional assigned value.
Floats are modelled by rationals; log output is modelled as a list of
structured log lines (the logger only receives text, so each line records
the pieces interpolated into the source's format string, in order).
-/

/-- Operator token appearing in a constraint-violation line of
log_infeasible_constraints. -/
inductive Op where
  | neq  -- the token printed between the operands is the string composed of equals, slash, equals
  | ineq -- the token printed between the operands is the string composed of less, slash, equals
  deriving DecidableEq

/-- A structured log line.  Each constructor corresponds to one
logger.info / logger.debug call site in the source and records exactly the
values interpolated into its format string, in order of appearance. -/
inductive LogLine where
  | constrViol (name : String) (lhs : ℚ) (op : Op) (rhs : ℚ)
  | constrMissing (name : String)
  | varBelowLB (name : String) (val lb : ℚ)
  | varAboveUB (name : String) (val ub : ℚ)
  | debugSkipVar (msg : String)
  | skipConstrClose (name : String)
  | varNearLB (name : String) (lb : ℚ)
  | varNearUB (name : String) (ub : ℚ)
  | constrNearUB (name : String)
  | constrNearLB (name : String)
  | constrActive (name : String)
  deriving DecidableEq

/-- A constraint datum: name, active flag, the evaluation result of its body,
optional lower/upper bounds, and the equality flag.  In pyomo the equality
flag holds only when the lower and upper bound are the same non-None value;
theorems about equality constraints carry that invariant as hypotheses. -/
structure ConstrData where
  name : String
  active : Bool
  bodyVal : Option ℚ
  lower : Option ℚ
  upper : Option ℚ
  equality : Bool
  deriving DecidableEq

/-- A variable datum: name, optional assigned value, optional bounds, and the
fixed flag. -/
structure VarData where
  name : String
  value : Option ℚ
  lb : Option ℚ
  ub : Option ℚ
  fixed : Bool
  deriving DecidableEq

/-- A model: the flattened sequence of variables and constraints that
component_data_objects(..., descend_into=True) yields. -/
structure Model where
  vars : List VarData
  constrs : List ConstrData
  deriving DecidableEq

/-- The argument of the logger.debug call for a variable with no assigned
value: the format string is passed to the logger without a .format call, so
the placeholder is left unfilled. -/
def skipVarMsg : String := "Skipping VAR \x7b\x7d with no assigned value."

/-- Lines emitted by log_infeasible_constraints for one constraint (with the
log_expression and log_variables flags at their default False).  When the
equality flag is set pyomo guarantees constr.lower is present, so the
getD 0 default is never reached on well-formed data. -/
def infeasibleConstrLines (tol : ℚ) (c : ConstrData) : List LogLine :=
  if c.active = false then []
  else
    match c.bodyVal with
    | none => [LogLine.constrMissing c.name]
    | some body =>
      if c.equality = true ∧ tol ≤ |c.lower.getD 0 - body| then
        [LogLine.constrViol c.name body Op.neq (c.lower.getD 0)]
      else
        (match c.lower with
         | some l => if tol ≤ l - body then [LogLine.constrViol c.name l Op.ineq body] else []
         | none => []) ++
        (match c.upper with
         | some u => if tol ≤ body - u then [LogLine.constrViol c.name body Op.ineq u] else []
         | none => [])

/-- Lines emitted by log_infeasible_bounds for one variable. -/
def infeasibleBoundLines (tol : ℚ) (v : VarData) : List LogLine :=
  match v.value with
  | none => [LogLine.debugSkipVar skipVarMsg]
  | some val =>
    (match v.lb with
     | some l => if tol ≤ l - val then [LogLine.varBelowLB v.name val l] else []
     | none => []) ++
    (match v.ub with
     | some u => if tol ≤ val - u then [LogLine.varAboveUB v.name val u] else []
     | none => [])

/-- The bound-spread guard of log_close_to_bounds: both bounds exist and
their spread is at most twice the tolerance. -/
def boundsTooClose (tol : ℚ) (v : VarData) : Bool :=
  match v.lb, v.ub with
  | some l, some u => decide (|u - l| ≤ 2 * tol)
  | _, _ => false

/-- The near-lower-bound test of log_close_to_bounds for a variable. -/
def nearLBVarLine (tol val : ℚ) (v : VarData) : Option LogLine :=
  match v.lb with
  | some l => if |l - val| ≤ tol then some (LogLine.varNearLB v.name l) else none
  | none => none

/-- The near-upper-bound test of log_close_to_bounds for a variable. -/
def nearUBVarLine (tol val : ℚ) (v : VarData) : Option LogLine :=
  match v.ub with
  | some u => if |u - val| ≤ tol then some (LogLine.varNearUB v.name u) else none
  | none => none

/-- Lines emitted by the variable loop of log_close_to_bounds for one
variable: fixed variables are skipped, unset values produce the debug skip
line, close bounds skip the variable, and the LB test takes priority over
the UB test through an else-if. -/
def closeVarLines (tol : ℚ) (v : VarData) : List LogLine :=
  if v.fixed = true then []
  else
    match v.value with
    | none => [LogLine.debugSkipVar skipVarMsg]
    | some val =>
      if boundsTooClose tol v = true then []
      else
        match nearLBVarLine tol val v with
        | some line => [line]
        | none =>
          match nearUBVarLine tol val v with
          | some line => [line]
          | none => []

/-- Lines emitted by the constraint loop of log_close_to_bounds for one
constraint: only active non-equality constraints are analyzed, the UB check
runs before the LB check, and the two checks are independent. -/
def closeConstrLines (tol : ℚ) (c : ConstrData) : List LogLine :=
  if c.active = false then []
  else if c.equality = true then []
  else
    match c.bodyVal with
    | none => [LogLine.skipConstrClose c.name]
    | some body =>
      (match c.upper with
       | some u => if |body - u| ≤ tol then [LogLine.constrNearUB c.name] else []
       | none => []) ++
      (match c.lower with
       | some l => if |body - l| ≤ tol then [LogLine.constrNearLB c.name] else []
       | none => [])

/-- log_infeasible_constraints: reads the model, logs violation lines.
State-passing form: the returned model is the post-state. -/
def log_infeasible_constraints (m : Model) (tol : ℚ) : Model × List LogLine :=
  (m, m.constrs.flatMap (infeasibleConstrLines tol))

/-- log_infeasible_bounds: reads the model, logs variable-bound violations. -/
def log_infeasible_bounds (m : Model) (tol : ℚ) : Model × List LogLine :=
  (m, m.vars.flatMap (infeasibleBoundLines tol))

/-- log_close_to_bounds: variable loop first, then constraint loop. -/
def log_close_to_bounds (m : Model) (tol : ℚ) : Model × List LogLine :=
  (m, m.vars.flatMap (closeVarLines tol) ++ m.constrs.flatMap (closeConstrLines tol))

/-- log_active_constraints: logs the name of every active constraint. -/
def log_active_constraints (m : Model) : Model × List LogLine :=
  (m, (m.constrs.filter (fun c => c.active)).map (fun c => LogLine.constrActive c.name))

/-- The caller-visible signature of one report function: whether it takes the
model handle, the default of its tolerance parameter (none when it has no
tolerance parameter), whether it takes a logger defaulting to the
module-level logger, and how many extra boolean flags it accepts. -/
structure ReportSignature where
  takesModel : Bool
  tolDefault : Option ℚ
  takesLogger : Bool
  extraBoolFlags : Nat
  deriving DecidableEq

/-- Signature of log_infeasible_constraints(m, tol=1E-6, logger=logger,
log_expression=False, log_variables=False). -/
def sig_log_infeasible_constraints : ReportSignature :=
  ⟨true, some (1 / 1000000), true, 2⟩

/-- Signature of log_infeasible_bounds(m, tol=1E-6, logger=logger). -/
def sig_log_infeasible_bounds : ReportSignature :=
  ⟨true, some (1 / 1000000), true, 0⟩

/-- Signature of log_close_to_bounds(m, tol=1E-6, logger=logger). -/
def sig_log_close_to_bounds : ReportSignature :=
  ⟨true, some (1 / 1000000), true, 0⟩

/-- Signature of log_active_constraints(m, logger=logger). -/
def sig_log_active_constraints : ReportSignature :=
  ⟨true, none, true, 0⟩

/-- The four exposed report functions, in source order. -/
def reportSigs : List ReportSignature :=
  [sig_log_infeasible_constraints, sig_log_infeasible_bounds,
   sig_log_close_to_bounds, sig_log_active_constraints]

/-- Characterization of log_infeasible_constraints on an active equality
constraint with evaluated body: exactly one violation line when the body
misses the shared bound by at least the tolerance, nothing otherwise. -/
lemma infeasibleConstrLines_eq_case (tol body l : ℚ) (c : ConstrData)
    (hact : c.active = true) (heq : c.equality = true)
    (hb : c.bodyVal = some body) (hl : c.lower = some l) (hu : c.upper = some l) :
    infeasibleConstrLines tol c =
      if tol ≤ |body - l| then [LogLine.constrViol c.name body Op.neq l] else [] := by
  rcases le_or_lt tol |body - l| with h | h
  · rw [if_pos h]
    have h2 : tol ≤ |l - body| := by rwa [abs_sub_comm]
    simp [infeasibleConstrLines, hact, hb, hl, hu, heq, h2]
  · rw [if_neg (not_le.mpr h)]
    obtain ⟨hbl, hlb⟩ := abs_sub_lt_iff.mp h
    have h1 : ¬ tol ≤ |l - body| := by rw [abs_sub_comm]; exact not_le.mpr h
    have h2 : ¬ tol ≤ l - body := not_le.mpr hlb
    have h3 : ¬ tol ≤ body - l := not_le.mpr hbl
    simp [infeasibleConstrLines, hact, hb, hl, hu, heq, h1, h2, h3]

/-- C1: for an active equality constraint whose body evaluates, a violation
line is logged iff the distance between body and bound is at least the
tolerance, and the line shows the body value, the equality-violation token,
and the bound value, in that order. -/
theorem c1_equality_violation_iff (tol body l : ℚ) (c : ConstrData)
    (hact : c.active = true) (heq : c.equality = true)
    (hb : c.bodyVal = some body) (hl : c.lower = some l) (hu : c.upper = some l) :
    infeasibleConstrLines tol c =
      if tol ≤ |body - l| then [LogLine.constrViol c.name body Op.neq l] else [] :=
  infeasibleConstrLines_eq_case tol body l c hact heq hb hl hu

/-- C1 witness: the spec scenario body 5, target 51/10, tolerance 1/1000000
logs the single violation line 5 =/= 51/10. -/
theorem c1_equality_violation_iff_witness :
    infeasibleConstrLines (1 / 1000000)
        ⟨"con", true, some 5, some (51 / 10), some (51 / 10), true⟩
      = [LogLine.constrViol "con" 5 Op.neq (51 / 10)] := by
  have h := c1_equality_violation_iff (1 / 1000000) 5 (51 / 10)
    ⟨"con", true, some 5, some (51 / 10), some (51 / 10), true⟩ rfl rfl rfl rfl rfl
  have hd : (1 / 1000000 : ℚ) ≤ |(5 : ℚ) - 51 / 10| := by
    rw [abs_sub_comm, abs_of_nonneg (by norm_num : (0 : ℚ) ≤ 51 / 10 - 5)]
    norm_num
  rw [h, if_pos hd]

/-- C2: for an active non-equality constraint whose body evaluates, the
lower and upper checks are independent: a lower line (bound, ineq token,
body) appears exactly when the lower bound exists and lower - body reaches
the tolerance, an upper line (body, ineq token, bound) exactly when the
upper bound exists and body - upper reaches the tolerance, and the output
is the concatenation of the two. -/
theorem c2_inequality_independent (tol body : ℚ) (c : ConstrData)
    (hact : c.active = true) (hne : c.equality = false) (hb : c.bodyVal = some body) :
    infeasibleConstrLines tol c =
      (match c.lower with
       | some l => if tol ≤ l - body then [LogLine.constrViol c.name l Op.ineq body] else []
       | none => []) ++
      (match c.upper with
       | some u => if tol ≤ body - u then [LogLine.constrViol c.name body Op.ineq u] else []
       | none => []) := by
  simp [infeasibleConstrLines, hact, hb, hne]

/-- C2 witness: the spec scenario lb 0, body -1, tolerance 1/1000000 logs
0 </= -1; a second constraint with both bounds violated logs both lines. -/
theorem c2_inequality_independent_witness :
    infeasibleConstrLines (1 / 1000000) ⟨"con", true, some (-1), some 0, none, false⟩
        = [LogLine.constrViol "con" 0 Op.ineq (-1)] ∧
    infeasibleConstrLines (1 / 1000000) ⟨"con", true, some 0, some 1, some (-1), false⟩
        = [LogLine.constrViol "con" 1 Op.ineq 0,
           LogLine.constrViol "con" 0 Op.ineq (-1)] := by
  constructor
  · have h := c2_inequality_independent (1 / 1000000) (-1)
      ⟨"con", true, some (-1), some 0, none, false⟩ rfl rfl rfl
    rw [h]
    norm_num
  · have h := c2_inequality_independent (1 / 1000000) 0
      ⟨"con", true, some 0, some 1, some (-1), false⟩ rfl rfl rfl
    rw [h]
    norm_num

/-- C3: a constraint with the equality flag set (shared bound) whose body
evaluates never produces an inequality-violation line: its output is at most
the single equality-violation line. -/
theorem c3_equality_excludes_inequality (tol body l : ℚ) (c : ConstrData)
    (heq : c.equality = true) (hb : c.bodyVal = some body)
    (hl : c.lower = some l) (hu : c.upper = some l) :
    (infeasibleConstrLines tol c).length ≤ 1 ∧
    ∀ line ∈ infeasibleConstrLines tol c,
      line = LogLine.constrViol c.name body Op.neq l := by
  by_cases hact : c.active = true
  · rw [infeasibleConstrLines_eq_case tol body l c hact heq hb hl hu]
    split <;> simp
  · rw [Bool.not_eq_true] at hact
    simp [infeasibleConstrLines, hact]

/-- C3 witness: an equality constraint within tolerance of its shared bound
logs nothing, in particular no inequality line. -/
theorem c3_equality_excludes_inequality_witness :
    (infeasibleConstrLines (1 / 1000000)
        ⟨"con", true, some 5, some 5, some 5, true⟩).length ≤ 1 :=
  (c3_equality_excludes_inequality (1 / 1000000) 5 5
    ⟨"con", true, some 5, some 5, some 5, true⟩ rfl rfl rfl rfl).1

/-- C4: an entity whose required value is unset yields exactly one skip line
and nothing else, and the remaining entities are still processed.  In
log_infeasible_constraints the body is evaluated before the equality check,
so every active constraint with unevaluable body gets the skip line, equality
or not; log_infeasible_bounds has no fixed filter, so every variable with no
value gets the debug skip, fixed or not.  In log_close_to_bounds the body
value is only required of non-equality constraints and the variable value
only of non-fixed variables, so those conjuncts carry that condition. -/
theorem c4_unset_value_skips (tol : ℚ) (c : ConstrData) (v : VarData)
    (hca : c.active = true) (hcb : c.bodyVal = none) (hv : v.value = none) :
    infeasibleConstrLines tol c = [LogLine.constrMissing c.name] ∧
    (c.equality = false → closeConstrLines tol c = [LogLine.skipConstrClose c.name]) ∧
    infeasibleBoundLines tol v = [LogLine.debugSkipVar skipVarMsg] ∧
    (v.fixed = false → closeVarLines tol v = [LogLine.debugSkipVar skipVarMsg]) ∧
    (∀ vs : List VarData, ∀ cs : List ConstrData,
      (log_infeasible_constraints ⟨vs, c :: cs⟩ tol).2
        = LogLine.constrMissing c.name :: (log_infeasible_constraints ⟨vs, cs⟩ tol).2) := by
  refine ⟨?_, ?_, ?_, ?_, ?_⟩
  · simp [infeasibleConstrLines, hca, hcb]
  · intro hne
    simp [closeConstrLines, hca, hne, hcb]
  · simp [infeasibleBoundLines, hv]
  · intro hvf
    simp [closeVarLines, hvf, hv]
  · intro vs cs
    simp [log_infeasible_constraints, infeasibleConstrLines, hca, hcb]

/-- C4 witness: an active equality constraint with unevaluable body and a
fixed variable with no value each produce exactly their skip line, and the
next constraint is still processed. -/
theorem c4_unset_value_skips_witness :
    infeasibleConstrLines 1 ⟨"con", true, none, some 0, some 0, true⟩
      = [LogLine.constrMissing "con"] ∧
    infeasibleBoundLines 1 ⟨"x", none, none, none, true⟩
      = [LogLine.debugSkipVar skipVarMsg] ∧
    (log_infeasible_constraints ⟨[], [⟨"con", true, none, some 0, some 0, true⟩]⟩ 1).2
      = LogLine.constrMissing "con" :: (log_infeasible_constraints ⟨[], []⟩ 1).2 := by
  have h := c4_unset_value_skips 1 ⟨"con", true, none, some 0, some 0, true⟩
    ⟨"x", none, none, none, true⟩ rfl rfl rfl
  exact ⟨h.1, h.2.2.1, h.2.2.2.2 [] []⟩

/-- C6: log_close_to_bounds analyzes only active non-equality constraints,
and for one whose body evaluates the UB and LB nearness checks are
independent: the output is the UB line (when the upper bound exists within
tolerance of the body) followed by the LB line (when the lower bound exists
within tolerance), and both may appear. -/
theorem c6_close_constr_independent (tol body : ℚ) (c : ConstrData) :
    (c.active = false → closeConstrLines tol c = []) ∧
    (c.equality = true → closeConstrLines tol c = []) ∧
    (c.active = true → c.equality = false → c.bodyVal = some body →
      closeConstrLines tol c =
        (match c.upper with
         | some u => if |body - u| ≤ tol then [LogLine.constrNearUB c.name] else []
         | none => []) ++
        (match c.lower with
         | some l => if |body - l| ≤ tol then [LogLine.constrNearLB c.name] else []
         | none => [])) := by
  refine ⟨?_, ?_, ?_⟩
  · intro h
    simp [closeConstrLines, h]
  · intro h
    by_cases ha : c.active = false <;> simp [closeConstrLines, ha, h]
  · intro ha hne hb
    simp [closeConstrLines, ha, hne, hb]

/-- C6 witness: a non-equality constraint with body 0 and both bounds 0 logs
the near-UB line and the near-LB line, in that order. -/
theorem c6_close_constr_independent_witness :
    closeConstrLines (1 / 1000000) ⟨"con", true, some 0, some 0, some 0, false⟩
      = [LogLine.constrNearUB "con", LogLine.constrNearLB "con"] := by
  have h := (c6_close_constr_independent (1 / 1000000) 0
    ⟨"con", true, some 0, some 0, some 0, false⟩).2.2 rfl rfl rfl
  rw [h]
  norm_num [abs_le]

/-- C7: log_infeasible_bounds on a variable with an assigned value: the
below-LB line appears exactly when a lower bound exists and lower - value
reaches the tolerance, the above-UB line exactly when an upper bound exists
and value - upper reaches the tolerance; the checks are independent and the
output is their concatenation. -/
theorem c7_var_bounds_independent (tol val : ℚ) (v : VarData) (hv : v.value = some val) :
    infeasibleBoundLines tol v =
      (match v.lb with
       | some l => if tol ≤ l - val then [LogLine.varBelowLB v.name val l] else []
       | none => []) ++
      (match v.ub with
       | some u => if tol ≤ val - u then [LogLine.varAboveUB v.name val u] else []
       | none => []) := by
  simp [infeasibleBoundLines, hv]

/-- C7 witness: a variable with value 0, lower bound 1 and upper bound -1
logs both violation lines. -/
theorem c7_var_bounds_independent_witness :
    infeasibleBoundLines (1 / 2) ⟨"x", some 0, some 1, some (-1), false⟩
      = [LogLine.varBelowLB "x" 0 1, LogLine.varAboveUB "x" 0 (-1)] := by
  have h := c7_var_bounds_independent (1 / 2) 0 ⟨"x", some 0, some 1, some (-1), false⟩ rfl
  rw [h]
  norm_num

/-- C9: none of the four report operations mutates the model: the post-state
model equals the input model; the only effect is the returned log. -/
theorem c9_reports_read_only (m : Model) (tol : ℚ) :
    (log_infeasible_constraints m tol).1 = m ∧
    (log_infeasible_bounds m tol).1 = m ∧
    (log_close_to_bounds m tol).1 = m ∧
    (log_active_constraints m).1 = m :=
  ⟨rfl, rfl, rfl, rfl⟩

/-- C10: the debug skip line for a variable with no assigned value, in both
log_infeasible_bounds and log_close_to_bounds, is the constant format string
with its placeholder left unfilled; the variable's name never appears. -/
theorem c10_skip_message_unfilled (tol : ℚ) (v : VarData) (hv : v.value = none) :
    infeasibleBoundLines tol v = [LogLine.debugSkipVar skipVarMsg] ∧
    (v.fixed = false → closeVarLines tol v = [LogLine.debugSkipVar skipVarMsg]) ∧
    skipVarMsg = "Skipping VAR \x7b\x7d with no assigned value." := by
  refine ⟨?_, ?_, rfl⟩
  · simp [infeasibleBoundLines, hv]
  · intro hf
    simp [closeVarLines, hf, hv]

/-- C10 witness: a concrete unset variable named x produces the literal
placeholder message, with no occurrence of the name x. -/
theorem c10_skip_message_unfilled_witness :
    infeasibleBoundLines 1 ⟨"x", none, some 0, some 1, false⟩
      = [LogLine.debugSkipVar "Skipping VAR \x7b\x7d with no assigned value."] := by
  have h := c10_skip_message_unfilled 1 ⟨"x", none, some 0, some 1, false⟩ rfl
  rw [h.1, h.2.2]

/-- C8 counterexample: log_active_constraints has no tolerance parameter, so
its signature's tolerance default is not 1/1000000. -/
theorem c8_counterexample :
    ¬ sig_log_active_constraints.tolDefault = some (1 / 1000000) :=
  fun h => Option.noConfusion h

/-- C8 amended: all four report functions take the model handle and a logger
defaulting to the module-level logger; the three checking functions take a
tolerance defaulting to 1/1000000, while log_active_constraints takes no
tolerance parameter. -/
theorem c8_signatures_amended :
    (sig_log_infeasible_constraints.takesModel = true ∧
     sig_log_infeasible_constraints.tolDefault = some (1 / 1000000) ∧
     sig_log_infeasible_constraints.takesLogger = true) ∧
    (sig_log_infeasible_bounds.takesModel = true ∧
     sig_log_infeasible_bounds.tolDefault = some (1 / 1000000) ∧
     sig_log_infeasible_bounds.takesLogger = true) ∧
    (sig_log_close_to_bounds.takesModel = true ∧
     sig_log_close_to_bounds.tolDefault = some (1 / 1000000) ∧
     sig_log_close_to_bounds.takesLogger = true) ∧
    (sig_log_active_constraints.takesModel = true ∧
     sig_log_active_constraints.tolDefault = none ∧
     sig_log_active_constraints.takesLogger = true) :=
  ⟨⟨rfl, rfl, rfl⟩, ⟨rfl, rfl, rfl⟩, ⟨rfl, rfl, rfl⟩, ⟨rfl, rfl, rfl⟩⟩

/-- The variable loop of log_close_to_bounds never logs more than one line
per variable. -/
lemma closeVarLines_length_le_one (tol : ℚ) (v : VarData) :
    (closeVarLines tol v).length ≤ 1 := by
  unfold closeVarLines
  split
  · simp
  · split
    · simp
    · split
      · simp
      · split
        · simp
        · split <;> simp

/-- C5: the variable loop of log_close_to_bounds on a non-fixed variable
with a value: bounds within 2*tolerance of each other suppress all output
(even when the value equals a bound exactly), at most one line is logged,
the near-LB line fires whenever the lower bound is within tolerance of the
value and the bounds are not too close, and the near-UB line fires only
when no lower bound is within tolerance. -/
theorem c5_close_var_priority (tol val : ℚ) (v : VarData)
    (hf : v.fixed = false) (hv : v.value = some val) :
    (∀ l u, v.lb = some l → v.ub = some u → |u - l| ≤ 2 * tol →
      closeVarLines tol v = []) ∧
    (closeVarLines tol v).length ≤ 1 ∧
    (∀ l, v.lb = some l → |l - val| ≤ tol → boundsTooClose tol v = false →
      closeVarLines tol v = [LogLine.varNearLB v.name l]) ∧
    (∀ u, v.ub = some u → |u - val| ≤ tol → boundsTooClose tol v = false →
      (∀ l, v.lb = some l → tol < |l - val|) →
      closeVarLines tol v = [LogLine.varNearUB v.name u]) := by
  refine ⟨?_, closeVarLines_length_le_one tol v, ?_, ?_⟩
  · intro l u hl hu hclose
    have hc : boundsTooClose tol v = true := by
      simp [boundsTooClose, hl, hu, hclose]
    simp [closeVarLines, hf, hv, hc]
  · intro l hl hnear hnc
    simp [closeVarLines, hf, hv, hnc, nearLBVarLine, hl, hnear]
  · intro u hu hnear hnc hfar
    have hlb : nearLBVarLine tol val v = none := by
      cases hvlb : v.lb with
      | none => simp [nearLBVarLine, hvlb]
      | some l =>
        have hgt : ¬ |l - val| ≤ tol := not_le.mpr (hfar l hvlb)
        simp [nearLBVarLine, hvlb, hgt]
    simp [closeVarLines, hf, hv, hnc, hlb, nearUBVarLine, hu, hnear]

/-- C5 witness: a variable sitting exactly on its bound logs nothing when
its bounds coincide, and a variable at its lower bound with a distant upper
bound logs only the near-LB line. -/
theorem c5_close_var_priority_witness :
    closeVarLines (1 / 1000000) ⟨"x", some 0, some 0, some 0, false⟩ = [] ∧
    closeVarLines (1 / 1000000) ⟨"y", some 0, some 0, some 10, false⟩
      = [LogLine.varNearLB "y" 0] := by
  constructor
  · exact (c5_close_var_priority (1 / 1000000) 0 ⟨"x", some 0, some 0, some 0, false⟩
      rfl rfl).1 0 0 rfl rfl (by norm_num [abs_le])
  · exact (c5_close_var_priority (1 / 1000000) 0 ⟨"y", some 0, some 0, some 10, false⟩
      rfl rfl).2.2.1 0 rfl (by norm_num [abs_le])
      (by simp [boundsTooClose]; norm_num [abs_le])
